import Mathlib

/-!
Shallow embedding of `src/app.py` (Flask multi-backend chat server).

Embedded here: the streaming generator `ai_stream` (its per-delta loop and
its exception handler), the per-request fan-out generator `generate` inside
the `/stream` handler (counter threading across backends), the prompt
assembler (`process_files` plus the `full_prompt` f-string with `.strip()`),
and the `/asklurk` best-answer picker.

External effects are modelled as explicit parameters:
* `ct : String → Nat` stands for `count_tok` (the tiktoken tokenizer call);
* `getKey : String → Option String` stands for `get_key` (an env lookup;
  `None` or the empty string are both falsy in the Python check);
* `up : String → Upstream` gives, per backend key, the outcome of the
  upstream streaming call: either a complete list of text deltas
  (`Upstream.ok`), or a prefix of deltas after which the iteration raises
  an exception with the given message (`Upstream.err`);
* an uploaded file carries the outcomes of the two external extraction
  calls that `process_files` can make on it (`pdfplumber` page extraction,
  where a page's `extract_text()` may return `None`, and
  `read().decode("utf-8", errors="ignore")`), each of which may raise.
-/

/-- One SSE payload produced by the server: the JSON dicts
`{}` (start), `{"bot":…,"text":…,"tokens":…}`, `{"bot":…,"error":…}`,
`{"bot":…,"done":true}` and `{"overall":"done"}` of `app.py`. -/
inductive Event where
  | start
  | text (bot : String) (txt : String) (tokens : Nat)
  | error (bot : String) (msg : String)
  | done (bot : String)
  | overallDone
  deriving DecidableEq, Repr

/-- The backend identifier (`"bot"` field) an event is tagged with. -/
def eventBot : Event → Option String
  | Event.start => none
  | Event.text b _ _ => some b
  | Event.error b _ => some b
  | Event.done b => some b
  | Event.overallDone => none

/-- Tests whether an event is a `{"bot":…,"done":true}` event. -/
def isDoneEvent : Event → Bool
  | Event.done _ => true
  | _ => false

/-- Outcome of one upstream streaming call (`client.chat.completions.create`
plus the iteration over its chunks): either it yields `deltas` and is
exhausted normally, or it yields `deltas` and then raises an exception
carrying `msg` (raising at `create` itself is `err [] msg`). -/
inductive Upstream where
  | ok (deltas : List String)
  | err (deltas : List String) (msg : String)
  deriving DecidableEq, Repr

/-- The error message of `app.py` line 215. -/
def budgetMsg : String := "Global token limit reached"

/-- The `for chunk in stream:` loop body of `ai_stream` (lines 211-218):
given the remaining deltas and the current value of `global_counter[0]`,
returns the events yielded by the loop, the final counter, and whether the
loop ended via `break` (budget exceeded) rather than exhaustion.
The write-only `buffer` accumulator of the Python code is omitted. -/
def aiLoop (ct : String → Nat) (bot : String) (it lim : Nat) :
    List String → Nat → List Event × Nat × Bool
  | [], c => ([], c, false)
  | d :: ds, c =>
    if c + it > lim then
      ([Event.error bot budgetMsg], c, true)
    else
      let t := ct d
      let r := aiLoop ct bot it lim ds (c + t)
      (Event.text bot d t :: r.1, r.2.1, r.2.2)

/-- The generator `ai_stream` (lines 194-221): runs the delta loop, then yields the
`done` event (line 219) — also reached after a budget `break`.  If the
upstream iteration raises after its prefix of deltas was consumed and the
loop had not already ended via `break`, the handler at line 221 yields one
error event instead. -/
def ai_stream (ct : String → Nat) (bot : String) (it lim : Nat)
    (u : Upstream) (c : Nat) : List Event × Nat :=
  match u with
  | Upstream.ok ds =>
    let r := aiLoop ct bot it lim ds c
    (r.1 ++ [Event.done bot], r.2.1)
  | Upstream.err ds msg =>
    let r := aiLoop ct bot it lim ds c
    if r.2.2 then (r.1 ++ [Event.done bot], r.2.1)
    else (r.1 ++ [Event.error bot msg], r.2.1)

/-- One uploaded `FileStorage`: its name and the outcomes of the external
extraction calls `process_files` may apply to it.  `pdfResult` is the
result of `pdfplumber.open` + per-page `extract_text()` (a page may yield
`None`); `txtResult` is the result of `read().decode("utf-8",
errors="ignore")`; either call may raise, carrying an error message. -/
structure UploadedFile where
  filename : String
  pdfResult : Except String (List (Option String))
  txtResult : Except String String

/-- Python `str.lower()`, per-character (ASCII case folding). -/
def lowerStr (s : String) : String := String.mk (s.data.map Char.toLower)

/-- Python `str.endswith(t)`. -/
def strEndsWith (s t : String) : Bool := t.data.isSuffixOf s.data

/-- The per-file `try:` body of `process_files` (lines 229-240): dispatch on
the lowercased filename extension; a raised extraction error becomes the
inline `[Error reading …]` placeholder; unknown extensions get the
`[File … attached]` placeholder. -/
def extractFile (f : UploadedFile) : String :=
  if strEndsWith (lowerStr f.filename) ".pdf" then
    match f.pdfResult with
    | Except.ok pages => String.intercalate "\n" (pages.map (fun p => p.getD ""))
    | Except.error e => "[Error reading " ++ f.filename ++ ": " ++ e ++ "]"
  else if strEndsWith (lowerStr f.filename) ".txt" then
    match f.txtResult with
    | Except.ok s => s
    | Except.error e => "[Error reading " ++ f.filename ++ ": " ++ e ++ "]"
  else
    "[File " ++ f.filename ++ " attached]"

/-- The function `process_files` (lines 223-241): one text part per file, joined by a
blank line (`"\n\n".join(text_parts)`). -/
def process_files (files : List UploadedFile) : String :=
  String.intercalate "\n\n" (files.map extractFile)

/-- Python `str.strip()` whitespace set (ASCII part). -/
def pyWs (c : Char) : Bool :=
  c = ' ' || c = '\t' || c = '\n' || c = '\r' || c = '\x0b' || c = '\x0c'

/-- Python `str.strip()`: drop leading and trailing whitespace. -/
def pyStrip (s : String) : String :=
  String.mk (((s.data.dropWhile pyWs).reverse.dropWhile pyWs).reverse)

/-- Line 254 of the `/stream` handler:
`full_prompt = f"{prompt}\n\n{file_text}".strip()`. -/
def full_prompt (prompt : String) (files : List UploadedFile) : String :=
  pyStrip (prompt ++ "\n\n" ++ process_files files)

/-- What §4.1 of the spec literally claims the Prompt Assembler returns:
the prompt, two newlines, and the plain concatenation of the files'
extracted texts (no separators, no stripping).  Kept only to compare
against `full_prompt`, the definition taken from the source. -/
def specAssembled (prompt : String) (files : List UploadedFile) : String :=
  prompt ++ "\n\n" ++ String.join (files.map extractFile)

/-- One entry of the `MODELS` dict: upstream model name and system prompt. -/
structure ModelCfg where
  model : String
  sys : String
  deriving DecidableEq, Repr

/-- The `MODELS` dict (lines 56-66), as an association list in the dict's
insertion order. -/
def MODELS : List (String × ModelCfg) :=
  [("logic", ⟨"deepseek/deepseek-chat-v3.1:free", "give short answer"⟩),
   ("creative", ⟨"deepseek/deepseek-chat-v3.1:free", "give short answer"⟩),
   ("balanced", ⟨"deepseek/deepseek-chat-v3.1:free", "give short answer"⟩),
   ("gpt4o", ⟨"deepseek/deepseek-chat-v3.1:free", "You are GPT-4o – clear, accurate, concise."⟩),
   ("claude3", ⟨"deepseek/deepseek-chat-v3.1:free", "You are Claude 3 – thoughtful and precise."⟩),
   ("llama31", ⟨"deepseek/deepseek-chat-v3.1:free", "give short answer"⟩),
   ("mixtral", ⟨"deepseek/deepseek-chat-v3.1:free", "give short answer"⟩),
   ("qwen", ⟨"deepseek/deepseek-chat-v3.1:free", "You are Qwen – multilingual and reasoning-focused."⟩),
   ("command-r", ⟨"deepseek/deepseek-chat-v3.1:free", "You are Command R+ – factual and structured."⟩)]

/-- The constant `GLOBAL_LIMIT` (line 55). -/
def GLOBAL_LIMIT : Nat := 300

/-- The per-backend body of the `generate` loop (lines 260-273): unknown
keys are skipped (`continue`); a missing/empty API key yields one error
event and a `continue`; otherwise `input_tokens` is computed from the
system prompt plus the assembled prompt, and `ai_stream` is run against
this backend's upstream outcome, threading the shared counter. -/
def runBackend (ct : String → Nat) (getKey : String → Option String)
    (up : String → Upstream) (fp : String) (c : Nat) (key : String) :
    List Event × Nat :=
  match MODELS.lookup key with
  | none => ([], c)
  | some cfg =>
    if (getKey key).getD "" = "" then
      ([Event.error key "No API key"], c)
    else
      ai_stream ct key (ct (cfg.sys ++ fp)) GLOBAL_LIMIT (up key) c

/-- The `for model_key in selected_models:` loop of `generate`
(lines 260-273), threading `global_counter` left to right. -/
def runBackends (ct : String → Nat) (getKey : String → Option String)
    (up : String → Upstream) (fp : String) :
    List String → Nat → List Event × Nat
  | [], c => ([], c)
  | k :: ks, c =>
    let r := runBackend ct getKey up fp c k
    let rest := runBackends ct getKey up fp ks r.2
    (r.1 ++ rest.1, rest.2)

/-- Same loop, but keeping each backend position's events as one block
(used to state the non-interleaving guarantee). -/
def runBlocks (ct : String → Nat) (getKey : String → Option String)
    (up : String → Upstream) (fp : String) :
    List String → Nat → List (List Event)
  | [], _ => []
  | k :: ks, c =>
    let r := runBackend ct getKey up fp c k
    r.1 :: runBlocks ct getKey up fp ks r.2

/-- The `generate` generator of the `/stream` handler (lines 258-274):
start marker, the fan-out with `global_counter = [0]`, overall-done
marker. -/
def generate (ct : String → Nat) (getKey : String → Option String)
    (up : String → Upstream) (fp : String) (selected : List String) :
    List Event :=
  Event.start :: ((runBackends ct getKey up fp selected 0).1 ++ [Event.overallDone])

/-- The accumulator step of Python `max(answers.items(), key=lambda kv:
len(kv[1]))`: the running maximum is replaced only on strict increase, so
the first maximal entry wins. -/
def pickStep (best kv : String × String) : String × String :=
  if kv.2.length > best.2.length then kv else best

/-- The `/asklurk` handler (lines 281-292).  `answers` and `prompt` default
to `{}` / `""` when absent; either being empty (falsy) yields the 400
error; otherwise the longest answer (first maximal) is returned. -/
def asklurk (answersOpt : Option (List (String × String)))
    (promptOpt : Option String) : Except Nat (String × String) :=
  match answersOpt.getD [] with
  | [] => Except.error 400
  | kv :: rest =>
    if promptOpt.getD "" = "" then Except.error 400
    else Except.ok (rest.foldl pickStep kv)

/-! ## Helper lemmas about the delta loop -/

/-- Unfolding lemma for one step of the delta loop. -/
theorem aiLoop_cons (ct : String → Nat) (bot : String) (it lim : Nat) (d : String)
    (ds : List String) (c : Nat) :
    aiLoop ct bot it lim (d :: ds) c =
      if c + it > lim then ([Event.error bot budgetMsg], c, true)
      else (Event.text bot d (ct d) :: (aiLoop ct bot it lim ds (c + ct d)).1,
            (aiLoop ct bot it lim ds (c + ct d)).2.1,
            (aiLoop ct bot it lim ds (c + ct d)).2.2) := by
  simp [aiLoop]

/-- The delta loop never yields a `done` event (that event is yielded after
the loop, at line 219). -/
theorem aiLoop_no_done (ct : String → Nat) (bot : String) (it lim : Nat) :
    ∀ ds c e, e ∈ (aiLoop ct bot it lim ds c).1 → isDoneEvent e = false := by
  intro ds
  induction ds with
  | nil =>
    intro c e he
    simp [aiLoop] at he
  | cons d ds ih =>
    intro c e he
    rw [aiLoop_cons] at he
    by_cases h : c + it > lim
    · rw [if_pos h] at he
      simp at he
      simp [he, isDoneEvent]
    · rw [if_neg h] at he
      simp at he
      rcases he with he | he
      · simp [he, isDoneEvent]
      · exact ih (c + ct d) e he

/-- Every event yielded by the delta loop is tagged with this backend. -/
theorem aiLoop_bot (ct : String → Nat) (bot : String) (it lim : Nat) :
    ∀ ds c e, e ∈ (aiLoop ct bot it lim ds c).1 → eventBot e = some bot := by
  intro ds
  induction ds with
  | nil =>
    intro c e he
    simp [aiLoop] at he
  | cons d ds ih =>
    intro c e he
    rw [aiLoop_cons] at he
    by_cases h : c + it > lim
    · rw [if_pos h] at he
      simp at he
      simp [he, eventBot]
    · rw [if_neg h] at he
      simp at he
      rcases he with he | he
      · simp [he, eventBot]
      · exact ih (c + ct d) e he

/-! ## C1 -/

/-- Claim C1: for every backend stream, the delta loop splits its input
into a consumed part `p` and an unconsumed remainder `s`: each consumed
delta was admitted by the budget check (counter-so-far plus the backend's
precomputed input-token count within the limit), was counted into the
counter, and produced one text event carrying the delta and its token
count; as soon as the check fails a single budget-exceeded error event is
yielded and no further text events follow (remainder unconsumed). -/
theorem c1_budget_delta_handling (ct : String → Nat) (bot : String) (it lim : Nat) :
    ∀ ds c, ∃ p s,
      ds = p ++ s ∧
      aiLoop ct bot it lim ds c =
        (p.map (fun d => Event.text bot d (ct d)) ++
           (if s.isEmpty then [] else [Event.error bot budgetMsg]),
         c + (p.map ct).sum, !s.isEmpty) ∧
      (s ≠ [] → c + (p.map ct).sum + it > lim) ∧
      (∀ i, i < p.length → c + ((p.take i).map ct).sum + it ≤ lim) := by
  intro ds
  induction ds with
  | nil =>
    intro c
    refine ⟨[], [], rfl, ?_, ?_, ?_⟩
    · simp [aiLoop]
    · simp
    · simp
  | cons d ds ih =>
    intro c
    by_cases h : c + it > lim
    · refine ⟨[], d :: ds, rfl, ?_, ?_, ?_⟩
      · rw [aiLoop_cons, if_pos h]
        simp
      · intro _
        simpa using h
      · simp
    · obtain ⟨p, s, hds, heq, hgt, hle⟩ := ih (c + ct d)
      refine ⟨d :: p, s, by simp [hds], ?_, ?_, ?_⟩
      · rw [aiLoop_cons, if_neg h, heq]
        simp [Nat.add_assoc]
      · intro hs
        have h2 := hgt hs
        simp only [List.map_cons, List.sum_cons]
        omega
      · intro i hi
        cases i with
        | zero =>
          simp
          omega
        | succ j =>
          have hj : j < p.length := by
            simp at hi
            omega
          have h2 := hle j hj
          simp only [List.take_succ_cons, List.map_cons, List.sum_cons]
          omega

/-- Witness for C1 at a concrete stream: limit 300, input-token count 100,
counter 250, three deltas of 2 characters each, length tokenizer. -/
theorem c1_budget_delta_handling_witness :
    ∃ p s,
      (["aa", "bb", "cc"] : List String) = p ++ s ∧
      aiLoop (fun d => d.length) "logic" 100 300 ["aa", "bb", "cc"] 250 =
        (p.map (fun d => Event.text "logic" d d.length) ++
           (if s.isEmpty then [] else [Event.error "logic" budgetMsg]),
         250 + (p.map (fun d => d.length)).sum, !s.isEmpty) ∧
      (s ≠ [] → 250 + (p.map (fun d => d.length)).sum + 100 > 300) ∧
      (∀ i, i < p.length →
         250 + ((p.take i).map (fun d => d.length)).sum + 100 ≤ 300) :=
  c1_budget_delta_handling (fun d => d.length) "logic" 100 300 ["aa", "bb", "cc"] 250

/-! ## C10 -/

/-- Claim C10: for every backend whose upstream call opens and iterates
without raising, the stream for that backend ends with exactly one `done`
event — the events before it (which may include a budget-exceeded error)
contain no `done` event, so a budget error is still followed by the
backend's `done` event. -/
theorem c10_done_after_clean_stream (ct : String → Nat) (bot : String)
    (it lim : Nat) (ds : List String) (c : Nat) :
    ∃ evs c2,
      ai_stream ct bot it lim (Upstream.ok ds) c = (evs ++ [Event.done bot], c2) ∧
      ∀ e ∈ evs, isDoneEvent e = false := by
  refine ⟨(aiLoop ct bot it lim ds c).1, (aiLoop ct bot it lim ds c).2.1, ?_, ?_⟩
  · simp [ai_stream]
  · intro e he
    exact aiLoop_no_done ct bot it lim ds c e he

/-- Witness for C10 on a stream that trips the budget (error then done). -/
theorem c10_done_after_clean_stream_witness :
    ∃ evs c2,
      ai_stream (fun _ => 200) "logic" 400 300 (Upstream.ok ["d1"]) 0 =
        (evs ++ [Event.done "logic"], c2) ∧
      ∀ e ∈ evs, isDoneEvent e = false :=
  c10_done_after_clean_stream (fun _ => 200) "logic" 400 300 ["d1"] 0

/-! ## Helper lemmas about the fan-out -/

/-- Every event yielded by `ai_stream` is tagged with this backend. -/
theorem ai_stream_bot (ct : String → Nat) (bot : String) (it lim : Nat) :
    ∀ u c e, e ∈ (ai_stream ct bot it lim u c).1 → eventBot e = some bot := by
  intro u c e he
  cases u with
  | ok ds =>
    simp [ai_stream] at he
    rcases he with he | he
    · exact aiLoop_bot ct bot it lim ds c e he
    · simp [he, eventBot]
  | err ds msg =>
    by_cases hb : (aiLoop ct bot it lim ds c).2.2 = true
    · simp [ai_stream, hb] at he
      rcases he with he | he
      · exact aiLoop_bot ct bot it lim ds c e he
      · simp [he, eventBot]
    · simp [ai_stream, hb] at he
      rcases he with he | he
      · exact aiLoop_bot ct bot it lim ds c e he
      · simp [he, eventBot]

/-- Every event yielded for one backend position is tagged with that
position's key. -/
theorem runBackend_bot (ct : String → Nat) (getKey : String → Option String)
    (up : String → Upstream) (fp : String) :
    ∀ c k e, e ∈ (runBackend ct getKey up fp c k).1 → eventBot e = some k := by
  intro c k e he
  unfold runBackend at he
  cases hM : MODELS.lookup k with
  | none =>
    rw [hM] at he
    simp at he
  | some cfg =>
    rw [hM] at he
    by_cases hk : (getKey k).getD "" = ""
    · simp [hk] at he
      simp [he, eventBot]
    · simp [hk] at he
      exact ai_stream_bot ct k (ct (cfg.sys ++ fp)) GLOBAL_LIMIT (up k) c e he

/-- The flat fan-out output is the concatenation of the per-position
blocks. -/
theorem runBackends_eq_flatten (ct : String → Nat) (getKey : String → Option String)
    (up : String → Upstream) (fp : String) :
    ∀ ks c, (runBackends ct getKey up fp ks c).1 =
      (runBlocks ct getKey up fp ks c).flatten := by
  intro ks
  induction ks with
  | nil =>
    intro c
    simp [runBackends, runBlocks]
  | cons k ks ih =>
    intro c
    simp [runBackends, runBlocks, ih]

/-- One block per entry of the selected list. -/
theorem runBlocks_length (ct : String → Nat) (getKey : String → Option String)
    (up : String → Upstream) (fp : String) :
    ∀ ks c, (runBlocks ct getKey up fp ks c).length = ks.length := by
  intro ks
  induction ks with
  | nil =>
    intro c
    simp [runBlocks]
  | cons k ks ih =>
    intro c
    simp [runBlocks, ih]

/-- Each block's events all carry the key of its position. -/
theorem runBlocks_tag (ct : String → Nat) (getKey : String → Option String)
    (up : String → Upstream) (fp : String) :
    ∀ (ks : List String) (c : Nat),
      ∀ pr ∈ ks.zip (runBlocks ct getKey up fp ks c),
        ∀ e ∈ pr.2, eventBot e = some pr.1 := by
  intro ks
  induction ks with
  | nil =>
    intro c pr hpr
    simp [runBlocks] at hpr
  | cons k ks ih =>
    intro c pr hpr e he
    simp only [runBlocks, List.zip_cons_cons, List.mem_cons] at hpr
    rcases hpr with hpr | hpr
    · subst hpr
      exact runBackend_bot ct getKey up fp c k e he
    · exact ih (runBackend ct getKey up fp c k).2 pr hpr e he

/-! ## C3 -/

/-- Claim C3: the stream is the start marker, then one contiguous block of
events per entry of `selected_models` in the given order (each block's
events all tagged with that entry's backend), then the overall-done
marker — so all events of position `i`, terminal included, precede every
event of position `i+1`, and backends are never interleaved. -/
theorem c3_sequential_blocks (ct : String → Nat) (getKey : String → Option String)
    (up : String → Upstream) (fp : String) (selected : List String) :
    ∃ B : List (List Event),
      generate ct getKey up fp selected =
        Event.start :: (B.flatten ++ [Event.overallDone]) ∧
      B.length = selected.length ∧
      ∀ pr ∈ selected.zip B, ∀ e ∈ pr.2, eventBot e = some pr.1 := by
  refine ⟨runBlocks ct getKey up fp selected 0, ?_, ?_, ?_⟩
  · simp [generate, runBackends_eq_flatten]
  · exact runBlocks_length ct getKey up fp selected 0
  · exact runBlocks_tag ct getKey up fp selected 0

/-- Witness for C3 at a concrete two-backend request. -/
theorem c3_sequential_blocks_witness :
    ∃ B : List (List Event),
      generate (fun d => d.length) (fun _ => some "k")
          (fun _ => Upstream.ok ["x"]) "p" ["logic", "qwen"] =
        Event.start :: (B.flatten ++ [Event.overallDone]) ∧
      B.length = (["logic", "qwen"] : List String).length ∧
      ∀ pr ∈ (["logic", "qwen"] : List String).zip B,
        ∀ e ∈ pr.2, eventBot e = some pr.1 :=
  c3_sequential_blocks (fun d => d.length) (fun _ => some "k")
    (fun _ => Upstream.ok ["x"]) "p" ["logic", "qwen"]

/-! ## C5 -/

/-- Claim C5: a selected backend whose credential is absent produces
exactly one error event and nothing else (in particular no text and no
done event), the upstream is never consulted for it (the result is the
same for any two upstream oracles), and the fan-out proceeds to the next
backend with the counter unchanged. -/
theorem c5_missing_credential (ct : String → Nat) (getKey : String → Option String)
    (up up2 : String → Upstream) (fp : String) (c : Nat) (k : String)
    (ks : List String) (hk : (MODELS.lookup k).isSome = true)
    (hkey : (getKey k).getD "" = "") :
    runBackend ct getKey up fp c k = ([Event.error k "No API key"], c) ∧
    runBackend ct getKey up fp c k = runBackend ct getKey up2 fp c k ∧
    runBackends ct getKey up fp (k :: ks) c =
      (Event.error k "No API key" :: (runBackends ct getKey up fp ks c).1,
       (runBackends ct getKey up fp ks c).2) := by
  obtain ⟨cfg, hcfg⟩ := Option.isSome_iff_exists.mp hk
  have h1 : runBackend ct getKey up fp c k = ([Event.error k "No API key"], c) := by
    unfold runBackend
    rw [hcfg]
    simp [hkey]
  have h2 : runBackend ct getKey up2 fp c k = ([Event.error k "No API key"], c) := by
    unfold runBackend
    rw [hcfg]
    simp [hkey]
  refine ⟨h1, h1.trans h2.symm, ?_⟩
  simp [runBackends, h1]

/-- Witness for C5: backend `logic`, key lookup returning `None`. -/
theorem c5_missing_credential_witness :
    runBackend (fun d => d.length) (fun _ => none) (fun _ => Upstream.ok ["x"]) "p" 0 "logic" =
      ([Event.error "logic" "No API key"], 0) ∧
    runBackend (fun d => d.length) (fun _ => none) (fun _ => Upstream.ok ["x"]) "p" 0 "logic" =
      runBackend (fun d => d.length) (fun _ => none) (fun _ => Upstream.err [] "boom") "p" 0 "logic" ∧
    runBackends (fun d => d.length) (fun _ => none) (fun _ => Upstream.ok ["x"]) "p"
        ["logic", "qwen"] 0 =
      (Event.error "logic" "No API key" ::
         (runBackends (fun d => d.length) (fun _ => none)
            (fun _ => Upstream.ok ["x"]) "p" ["qwen"] 0).1,
       (runBackends (fun d => d.length) (fun _ => none)
          (fun _ => Upstream.ok ["x"]) "p" ["qwen"] 0).2) :=
  c5_missing_credential (fun d => d.length) (fun _ => none) (fun _ => Upstream.ok ["x"])
    (fun _ => Upstream.err [] "boom") "p" 0 "logic" ["qwen"] (by rfl) (by rfl)

/-! ## C9 -/

/-- Claim C9: an entry of `selected_models` that is not a key of `MODELS`
is skipped silently — it contributes no events, and the fan-out output is
exactly what it would be with that entry removed from the list. -/
theorem c9_unknown_key_skipped (ct : String → Nat) (getKey : String → Option String)
    (up : String → Upstream) (fp : String) (bad : String)
    (hbad : MODELS.lookup bad = none) :
    (∀ c, runBackend ct getKey up fp c bad = ([], c)) ∧
    (∀ xs ys c, runBackends ct getKey up fp (xs ++ bad :: ys) c =
       runBackends ct getKey up fp (xs ++ ys) c) := by
  have h0 : ∀ c, runBackend ct getKey up fp c bad = ([], c) := by
    intro c
    unfold runBackend
    rw [hbad]
  refine ⟨h0, ?_⟩
  intro xs
  induction xs with
  | nil =>
    intro ys c
    simp [runBackends, h0]
  | cons x xs ih =>
    intro ys c
    simp [runBackends, ih]

/-- Witness for C9: the unknown entry `nosuch` between two known ones. -/
theorem c9_unknown_key_skipped_witness :
    (∀ c, runBackend (fun d => d.length) (fun _ => some "k")
        (fun _ => Upstream.ok ["x"]) "p" c "nosuch" = ([], c)) ∧
    (∀ xs ys c,
       runBackends (fun d => d.length) (fun _ => some "k")
           (fun _ => Upstream.ok ["x"]) "p" (xs ++ "nosuch" :: ys) c =
         runBackends (fun d => d.length) (fun _ => some "k")
           (fun _ => Upstream.ok ["x"]) "p" (xs ++ ys) c) :=
  c9_unknown_key_skipped (fun d => d.length) (fun _ => some "k")
    (fun _ => Upstream.ok ["x"]) "p" "nosuch" (by rfl)

/-! ## Helper lemmas for the counter invariant -/

/-- The delta loop never decreases the shared counter. -/
theorem aiLoop_mono (ct : String → Nat) (bot : String) (it lim : Nat) :
    ∀ ds c, c ≤ (aiLoop ct bot it lim ds c).2.1 := by
  intro ds
  induction ds with
  | nil =>
    intro c
    simp [aiLoop]
  | cons d ds ih =>
    intro c
    rw [aiLoop_cons]
    by_cases h : c + it > lim
    · rw [if_pos h]
    · rw [if_neg h]
      have := ih (c + ct d)
      simp only []
      omega

/-- The generator `ai_stream` never decreases the shared counter. -/
theorem ai_stream_mono (ct : String → Nat) (bot : String) (it lim : Nat) :
    ∀ u c, c ≤ (ai_stream ct bot it lim u c).2 := by
  intro u c
  cases u with
  | ok ds =>
    simpa [ai_stream] using aiLoop_mono ct bot it lim ds c
  | err ds msg =>
    by_cases hb : (aiLoop ct bot it lim ds c).2.2 = true
    · simpa [ai_stream, hb] using aiLoop_mono ct bot it lim ds c
    · simpa [ai_stream, hb] using aiLoop_mono ct bot it lim ds c

/-- One backend step never decreases the shared counter. -/
theorem runBackend_mono (ct : String → Nat) (getKey : String → Option String)
    (up : String → Upstream) (fp : String) :
    ∀ c k, c ≤ (runBackend ct getKey up fp c k).2 := by
  intro c k
  unfold runBackend
  cases hM : MODELS.lookup k with
  | none => simp
  | some cfg =>
    by_cases hk : (getKey k).getD "" = ""
    · simp [hk]
    · simp [hk]
      exact ai_stream_mono ct k (ct (cfg.sys ++ fp)) GLOBAL_LIMIT (up k) c

/-- The fan-out never decreases the shared counter. -/
theorem runBackends_mono (ct : String → Nat) (getKey : String → Option String)
    (up : String → Upstream) (fp : String) :
    ∀ ks c, c ≤ (runBackends ct getKey up fp ks c).2 := by
  intro ks
  induction ks with
  | nil =>
    intro c
    simp [runBackends]
  | cons k ks ih =>
    intro c
    have h1 := runBackend_mono ct getKey up fp c k
    have h2 := ih (runBackend ct getKey up fp c k).2
    simp only [runBackends]
    omega

/-! ## C8 -/

/-- Claim C8: within one request the shared counter is monotonically
non-decreasing (per delta loop and across the whole fan-out); the budget
check happens before a delta's tokens are counted — when the check fails
the counter is left untouched and only the error event is yielded; and
after a backend's loop the counter is at most `max` of its starting value
and the limit plus one chunk's token count, i.e. the limit can be
overshot by at most one already-buffered chunk per backend. -/
theorem c8_counter_invariant (ct : String → Nat) (bot : String) (it lim : Nat)
    (getKey : String → Option String) (up : String → Upstream) (fp : String) :
    (∀ ds c, c ≤ (aiLoop ct bot it lim ds c).2.1) ∧
    (∀ ks c, c ≤ (runBackends ct getKey up fp ks c).2) ∧
    (∀ d ds c, c + it > lim →
       aiLoop ct bot it lim (d :: ds) c = ([Event.error bot budgetMsg], c, true)) ∧
    (∀ ds c, (aiLoop ct bot it lim ds c).2.1 ≤
       max c (lim + (ds.map ct).foldr max 0)) := by
  refine ⟨aiLoop_mono ct bot it lim, runBackends_mono ct getKey up fp, ?_, ?_⟩
  · intro d ds c h
    rw [aiLoop_cons, if_pos h]
  · intro ds
    induction ds with
    | nil =>
      intro c
      simp [aiLoop]
    | cons d ds ih =>
      intro c
      rw [aiLoop_cons]
      by_cases h : c + it > lim
      · rw [if_pos h]
        simp
      · rw [if_neg h]
        simp only [List.map_cons, List.foldr_cons]
        have hI := ih (c + ct d)
        have hc : c ≤ lim := by omega
        refine le_trans hI (max_le ?_ ?_)
        · have : c + ct d ≤ lim + max (ct d) ((ds.map ct).foldr max 0) :=
            Nat.add_le_add hc (le_max_left _ _)
          exact le_trans this (le_max_right _ _)
        · have : lim + (ds.map ct).foldr max 0 ≤
              lim + max (ct d) ((ds.map ct).foldr max 0) :=
            Nat.add_le_add_left (le_max_right _ _) lim
          exact le_trans this (le_max_right _ _)

/-- Witness for C8: the failed check at counter 150 leaves it at 150. -/
theorem c8_counter_invariant_witness :
    aiLoop (fun d => d.length) "logic" 200 300 ["dd"] 150 =
      ([Event.error "logic" budgetMsg], 150, true) :=
  (c8_counter_invariant (fun d => d.length) "logic" 200 300 (fun _ => none)
      (fun _ => Upstream.ok []) "").2.2.1 "dd" [] 150 (by omega)

/-! ## Helper lemma for the best-answer picker -/

/-- Python `max(..., key=len)` over a nonempty list: the fold returns the
first entry of maximal answer length — everything before it in the list is
strictly shorter, everything in the list is at most as long. -/
theorem foldl_pickStep_first_max :
    ∀ (l : List (String × String)) (a : String × String),
      ∃ pre post,
        a :: l = pre ++ (l.foldl pickStep a) :: post ∧
        (∀ e ∈ pre, e.2.length < (l.foldl pickStep a).2.length) ∧
        (∀ e ∈ a :: l, e.2.length ≤ (l.foldl pickStep a).2.length) := by
  intro l
  induction l with
  | nil =>
    intro a
    refine ⟨[], [], by simp, by simp, by simp⟩
  | cons b l ih =>
    intro a
    by_cases h : b.2.length > a.2.length
    · have hs : List.foldl pickStep a (b :: l) = List.foldl pickStep b l := by
        simp [pickStep, h]
      obtain ⟨pre, post, hdec, hlt, hle⟩ := ih b
      refine ⟨a :: pre, post, ?_, ?_, ?_⟩
      · rw [hs, hdec, List.cons_append]
      · intro e he
        rw [hs]
        rcases List.mem_cons.mp he with rfl | he2
        · have hb := hle b (List.mem_cons_self b l)
          omega
        · exact hlt e he2
      · intro e he
        rw [hs]
        rcases List.mem_cons.mp he with rfl | he2
        · have hb := hle b (List.mem_cons_self b l)
          omega
        · exact hle e he2
    · have hs : List.foldl pickStep a (b :: l) = List.foldl pickStep a l := by
        simp [pickStep, h]
      obtain ⟨pre, post, hdec, hlt, hle⟩ := ih a
      cases pre with
      | nil =>
        simp only [List.nil_append] at hdec
        injection hdec with h1 h2
        refine ⟨[], b :: l, ?_, by simp, ?_⟩
        · simp only [List.nil_append]
          rw [hs, ← h1]
        · intro e he
          rw [hs]
          rcases List.mem_cons.mp he with rfl | he2
          · exact hle e (List.mem_cons_self e l)
          · rcases List.mem_cons.mp he2 with rfl | he3
            · have := hle a (List.mem_cons_self a l)
              omega
            · exact hle e (List.mem_cons_of_mem a he3)
      | cons a0 pre0 =>
        rw [List.cons_append] at hdec
        injection hdec with h1 h2
        have hlta : a.2.length < (List.foldl pickStep a l).2.length := by
          have := hlt a0 (List.mem_cons_self a0 pre0)
          rw [← h1] at this
          exact this
        refine ⟨a :: b :: pre0, post, ?_, ?_, ?_⟩
        · rw [hs]
          conv_lhs => rw [h2]
          simp [List.cons_append]
        · intro e he
          rw [hs]
          rcases List.mem_cons.mp he with rfl | he2
          · exact hlta
          · rcases List.mem_cons.mp he2 with rfl | he3
            · omega
            · have := hlt e (List.mem_cons_of_mem a0 he3)
              exact this
        · intro e he
          rw [hs]
          rcases List.mem_cons.mp he with rfl | he2
          · exact hle e (List.mem_cons_self e l)
          · rcases List.mem_cons.mp he2 with rfl | he3
            · omega
            · exact hle e (List.mem_cons_of_mem a he3)

/-! ## C2 -/

/-- Claim C2: on a non-empty answers mapping and non-empty prompt,
`asklurk` returns the first entry of maximal answer length (ties broken by
iteration order); in particular for `{"a": "x", "b": "xyz"}` it returns
`("b", "xyz")` for every non-empty prompt. -/
theorem c2_longest_answer :
    (∀ (answers : List (String × String)) (prompt : String),
       answers ≠ [] → prompt ≠ "" →
       ∃ r pre post,
         asklurk (some answers) (some prompt) = Except.ok r ∧
         answers = pre ++ r :: post ∧
         (∀ e ∈ pre, e.2.length < r.2.length) ∧
         (∀ e ∈ answers, e.2.length ≤ r.2.length)) ∧
    (∀ p : String, p ≠ "" →
       asklurk (some [("a", "x"), ("b", "xyz")]) (some p) =
         Except.ok ("b", "xyz")) := by
  constructor
  · intro answers prompt hA hP
    cases answers with
    | nil => exact absurd rfl hA
    | cons kv rest =>
      obtain ⟨pre, post, hdec, hlt, hle⟩ := foldl_pickStep_first_max rest kv
      refine ⟨rest.foldl pickStep kv, pre, post, ?_, hdec, hlt, hle⟩
      simp [asklurk, hP]
  · intro p hp
    simp [asklurk, hp]
    rfl

/-- Witness for C2 at the spec's example mapping with prompt `"q"`. -/
theorem c2_longest_answer_witness :
    asklurk (some [("a", "x"), ("b", "xyz")]) (some "q") =
      Except.ok ("b", "xyz") :=
  c2_longest_answer.2 "q" (by decide)

/-! ## C6 -/

/-- Claim C6: `asklurk` answers HTTP 400 exactly when the answers mapping
or the prompt is absent or empty (absent fields default to `{}` / `""`);
in particular an empty answers mapping always yields 400. -/
theorem c6_asklurk_400 :
    (∀ (a : Option (List (String × String))) (p : Option String),
       asklurk a p = Except.error 400 ↔ (a.getD [] = [] ∨ p.getD "" = "")) ∧
    (∀ p : Option String, asklurk (some []) p = Except.error 400) := by
  have hmain : ∀ (a : Option (List (String × String))) (p : Option String),
      asklurk a p = Except.error 400 ↔ (a.getD [] = [] ∨ p.getD "" = "") := by
    intro a p
    constructor
    · intro h
      by_cases hA : a.getD [] = []
      · exact Or.inl hA
      · right
        by_cases hp : p.getD "" = ""
        · exact hp
        · exfalso
          cases hAeq : a.getD [] with
          | nil => exact hA hAeq
          | cons kv rest =>
            unfold asklurk at h
            rw [hAeq] at h
            simp [hp] at h
    · intro h
      rcases h with hA | hp
      · unfold asklurk
        rw [hA]
      · unfold asklurk
        cases hAeq : a.getD [] with
        | nil => rfl
        | cons kv rest => simp [hp]
  exact ⟨hmain, fun p => (hmain (some []) p).mpr (Or.inl rfl)⟩

/-- Witness for C6: present but empty prompt, non-empty answers. -/
theorem c6_asklurk_400_witness :
    asklurk (some [("a", "x")]) (some "") = Except.error 400 :=
  (c6_asklurk_400.1 (some [("a", "x")]) (some "")).mpr (Or.inr rfl)

/-! ## C4 -/

/-- Counterexample for C4 as stated: the assembled prompt is NOT the
prompt followed by two newlines and the concatenation of the files'
texts.  With no files the code strips the trailing blank line
(`"hi"` vs `"hi\n\n"`), and with two text files the parts are joined by a
blank line, not concatenated (`"hi\n\na\n\nb"` vs `"hi\n\nab"`). -/
theorem c4_counterexample :
    full_prompt "hi" [] ≠ specAssembled "hi" [] ∧
    full_prompt "hi"
        [⟨"a.txt", Except.error "e", Except.ok "a"⟩,
         ⟨"b.txt", Except.error "e", Except.ok "b"⟩] ≠
      specAssembled "hi"
        [⟨"a.txt", Except.error "e", Except.ok "a"⟩,
         ⟨"b.txt", Except.error "e", Except.ok "b"⟩] := by
  constructor
  · decide
  · decide

/-- Claim C4 amended: the Prompt Assembler produces the prompt followed by
two newlines and the files' extracted texts joined pairwise by two
newlines, with leading and trailing whitespace stripped from the result;
per file, PDF text is the page texts joined with newlines, a text file
yields its decoded content, and an unsupported extension yields the
placeholder naming the file. -/
theorem c4_assembly_amended :
    (∀ (prompt : String) (files : List UploadedFile),
       full_prompt prompt files =
         pyStrip (prompt ++ "\n\n" ++
           String.intercalate "\n\n" (files.map extractFile))) ∧
    (∀ f : UploadedFile, strEndsWith (lowerStr f.filename) ".pdf" = true →
       ∀ pages, f.pdfResult = Except.ok pages →
         extractFile f = String.intercalate "\n" (pages.map (fun p => p.getD ""))) ∧
    (∀ f : UploadedFile, strEndsWith (lowerStr f.filename) ".pdf" = false →
       strEndsWith (lowerStr f.filename) ".txt" = true →
       ∀ s, f.txtResult = Except.ok s → extractFile f = s) ∧
    (∀ f : UploadedFile, strEndsWith (lowerStr f.filename) ".pdf" = false →
       strEndsWith (lowerStr f.filename) ".txt" = false →
       extractFile f = "[File " ++ f.filename ++ " attached]") := by
  refine ⟨?_, ?_, ?_, ?_⟩
  · intro prompt files
    rfl
  · intro f hpdf pages hpg
    simp [extractFile, hpdf, hpg]
  · intro f hpdf htxt s hs
    simp [extractFile, hpdf, htxt, hs]
  · intro f hpdf htxt
    simp [extractFile, hpdf, htxt]

/-- Witness for C4 (amended) on a two-page PDF with one empty page. -/
theorem c4_assembly_amended_witness :
    extractFile ⟨"x.PDF", Except.ok [some "p1", none], Except.ok ""⟩ =
      String.intercalate "\n" ([some "p1", none].map (fun p => p.getD "")) :=
  c4_assembly_amended.2.1 ⟨"x.PDF", Except.ok [some "p1", none], Except.ok ""⟩
    (by decide) [some "p1", none] rfl

/-! ## C7 -/

/-- Claim C7: any individual file whose extraction raises — a PDF whose
`pdfplumber` extraction fails, or a text file whose read/decode fails —
contributes exactly the inline placeholder (which contains the filename
and the error text), and the other files of the request are extracted
unchanged: the fan over the file list never aborts. -/
theorem c7_extraction_failure_isolated (xs ys : List UploadedFile)
    (f : UploadedFile) (msg : String)
    (hfail : (strEndsWith (lowerStr f.filename) ".pdf" = true ∧
                f.pdfResult = Except.error msg) ∨
             (strEndsWith (lowerStr f.filename) ".pdf" = false ∧
              strEndsWith (lowerStr f.filename) ".txt" = true ∧
                f.txtResult = Except.error msg)) :
    extractFile f = "[Error reading " ++ f.filename ++ ": " ++ msg ++ "]" ∧
    process_files (xs ++ f :: ys) =
      String.intercalate "\n\n"
        (xs.map extractFile ++
          ("[Error reading " ++ f.filename ++ ": " ++ msg ++ "]") ::
            ys.map extractFile) ∧
    (∃ u v, "[Error reading " ++ f.filename ++ ": " ++ msg ++ "]" =
       u ++ f.filename ++ v) ∧
    (∃ u2 v2, "[Error reading " ++ f.filename ++ ": " ++ msg ++ "]" =
       u2 ++ msg ++ v2) := by
  have hbad : extractFile f =
      "[Error reading " ++ f.filename ++ ": " ++ msg ++ "]" := by
    rcases hfail with ⟨hpdf, hres⟩ | ⟨hpdf, htxt, hres⟩
    · simp [extractFile, hpdf, hres]
    · simp [extractFile, hpdf, htxt, hres]
  refine ⟨hbad, ?_, ?_, ?_⟩
  · unfold process_files
    rw [List.map_append, List.map_cons, hbad]
  · exact ⟨"[Error reading ", ": " ++ msg ++ "]", by simp [String.append_assoc]⟩
  · exact ⟨"[Error reading " ++ f.filename ++ ": ", "]", rfl⟩

/-- Witness for C7, exercising both failure branches: a corrupted PDF
between two valid text files, and a text file whose decode raises. -/
theorem c7_extraction_failure_isolated_witness :
    (extractFile ⟨"f.pdf", Except.error "bad xref", Except.ok ""⟩ =
        "[Error reading " ++ "f.pdf" ++ ": " ++ "bad xref" ++ "]" ∧
     process_files
         ([⟨"a.txt", Except.error "z", Except.ok "a"⟩] ++
           ⟨"f.pdf", Except.error "bad xref", Except.ok ""⟩ ::
             [⟨"b.txt", Except.error "z", Except.ok "b"⟩]) =
       String.intercalate "\n\n"
         ([⟨"a.txt", Except.error "z", Except.ok "a"⟩].map extractFile ++
           ("[Error reading " ++ "f.pdf" ++ ": " ++ "bad xref" ++ "]") ::
             [⟨"b.txt", Except.error "z", Except.ok "b"⟩].map extractFile) ∧
     (∃ u v, "[Error reading " ++ "f.pdf" ++ ": " ++ "bad xref" ++ "]" =
        u ++ "f.pdf" ++ v) ∧
     (∃ u2 v2, "[Error reading " ++ "f.pdf" ++ ": " ++ "bad xref" ++ "]" =
        u2 ++ "bad xref" ++ v2)) ∧
    (extractFile ⟨"n.txt", Except.ok [], Except.error "decode fail"⟩ =
        "[Error reading " ++ "n.txt" ++ ": " ++ "decode fail" ++ "]" ∧
     process_files
         ([] ++ ⟨"n.txt", Except.ok [], Except.error "decode fail"⟩ ::
             [⟨"b.txt", Except.error "z", Except.ok "b"⟩]) =
       String.intercalate "\n\n"
         (List.map extractFile [] ++
           ("[Error reading " ++ "n.txt" ++ ": " ++ "decode fail" ++ "]") ::
             [⟨"b.txt", Except.error "z", Except.ok "b"⟩].map extractFile) ∧
     (∃ u v, "[Error reading " ++ "n.txt" ++ ": " ++ "decode fail" ++ "]" =
        u ++ "n.txt" ++ v) ∧
     (∃ u2 v2, "[Error reading " ++ "n.txt" ++ ": " ++ "decode fail" ++ "]" =
        u2 ++ "decode fail" ++ v2)) :=
  ⟨c7_extraction_failure_isolated
     [⟨"a.txt", Except.error "z", Except.ok "a"⟩]
     [⟨"b.txt", Except.error "z", Except.ok "b"⟩]
     ⟨"f.pdf", Except.error "bad xref", Except.ok ""⟩ "bad xref"
     (Or.inl ⟨by decide, rfl⟩),
   c7_extraction_failure_isolated []
     [⟨"b.txt", Except.error "z", Except.ok "b"⟩]
     ⟨"n.txt", Except.ok [], Except.error "decode fail"⟩ "decode fail"
     (Or.inr ⟨by decide, by decide, rfl⟩)⟩
